import Mathlib

/-!
# uplink-c boundary layer: handles, scopes and result marshaling

A shallow embedding of `project.go` and `upload.go`.

* The process-wide handle table `universe`, the effect trace of calls into the
  wrapped storage library and the table of scopes form an explicit `World`
  that every exported function takes and returns.
* The wrapped library is a parameter `Lib`: one function per consumed
  operation, giving the outcome of a call from the history of earlier effects
  and the call's arguments. Each call is recorded as an `Event`.
* A C pointer is an `Option`: `none` is the null pointer, `some c` points at a
  live struct `c`. The C heap is not part of the state: `C.free` has no effect
  here, and nothing is stated about a call through a pointer that an earlier
  call has released. A Go `error` is an `Option GoError`: `none` is `nil`.
* A Go function that dereferences a pointer without a nil check returns an
  `Option`: `none` is the run-time panic of a nil dereference.
-/

set_option linter.dupNamespace false

namespace Uplink

/-! ## Wrapped library: opaque objects, errors, effects -/

/-- Identity of an `*uplink.Access` value. -/
abbrev LibAccess := Nat
/-- Identity of an `*uplink.Project` value. -/
abbrev LibProject := Nat
/-- Identity of an `*uplink.Upload` value. -/
abbrev LibUpload := Nat
/-- Identity of an `*uplink.Object` value returned by `Info`. -/
abbrev LibObject := Nat

/-- An error value produced inside the wrapped library. -/
structure LibError where
  code : Nat
  msg : String
  deriving DecidableEq, Repr

/-- Go `context.Context`: the cancellable node it hangs from and the
concurrent-segment-upload override it carries, if any. -/
structure Context where
  node : Nat
  concurrent : Option Int
  deriving DecidableEq, Repr

/-- Go `time.Time`, as seconds and nanoseconds since the Unix epoch. -/
structure Time where
  sec : Int
  nsec : Int
  deriving DecidableEq, Repr

/-- The zero `time.Time`: January 1, year 1, 00:00:00 UTC. -/
def Time.zero : Time := { sec := -62135596800, nsec := 0 }

/-- Go `time.Unix(sec, nsec)` for `0 ≤ nsec < 1e9`. -/
def Time.Unix (sec : Int) (nsec : Int) : Time := { sec := sec, nsec := nsec }

/-- Go `uplink.UploadOptions`. The zero value of `Expires` means no expiration. -/
structure UploadOptions where
  Expires : Time := Time.zero
  deriving DecidableEq, Repr

/-- Go `uplink.Config`; only the zero value `uplink.Config{}` is ever built. -/
structure Config where
  deriving DecidableEq, Repr

/-- One observable effect: a scope cancellation or a call into the library. -/
inductive Event where
  | cancel (node : Nat)
  | OpenProject (config : Config) (ctx : Context) (access : LibAccess)
  | Close (proj : LibProject)
  | RevokeAccess (proj : LibProject) (ctx : Context) (access : LibAccess)
  | UploadObject (proj : LibProject) (ctx : Context) (bucket key : String)
      (opts : UploadOptions)
  | Write (up : LibUpload) (data : Nat) (len cap : Int)
  | Commit (up : LibUpload)
  | Abort (up : LibUpload)
  | Info (up : LibUpload)
  deriving DecidableEq, Repr

/-- An event is a call into the wrapped library (anything but a cancel). -/
def Event.isLibCall : Event → Bool
  | .cancel _ => false
  | _ => true

/-- The wrapped library. Each field gives the outcome of one operation from
the effects so far and the arguments of the call. -/
structure Lib where
  OpenProject : List Event → Config → Context → LibAccess → LibProject × Option LibError
  Close : List Event → LibProject → Option LibError
  RevokeAccess : List Event → LibProject → Context → LibAccess → Option LibError
  UploadObject : List Event → LibProject → Context → String → String → UploadOptions →
    LibUpload × Option LibError
  Write : List Event → LibUpload → Nat → Int → Int × Option LibError
  Commit : List Event → LibUpload → Option LibError
  Abort : List Event → LibUpload → Option LibError
  Info : List Event → LibUpload → Option LibObject

/-! ## Scopes -/

/-- Go `scope`: an execution context and the node its `cancel` function cancels. -/
structure scope where
  ctx : Context
  cancel : Nat
  deriving DecidableEq, Repr

/-! ## Façades and the handle table -/

/-- Go `Access`: wraps an `*uplink.Access`. -/
structure Access where
  Access : LibAccess
  deriving DecidableEq, Repr

/-- Go `Project`: a scope and an `*uplink.Project`. -/
structure Project where
  scope : scope
  Project : LibProject
  deriving DecidableEq, Repr

/-- Go `Upload`: a scope and an `*uplink.Upload`. -/
structure Upload where
  scope : scope
  upload : LibUpload
  deriving DecidableEq, Repr

/-- What a handle can be bound to: the dynamic type and value of the
`interface{}` stored in the table. `other` stands for every façade kind
that these two files do not touch (downloads, listings, ...). -/
inductive Object where
  | access (a : Access)
  | project (p : Project)
  | upload (u : Upload)
  | other (kind : Nat)
  deriving DecidableEq, Repr

/-- Go `universe.Get(h).(*Access)`: the type assertion on a looked-up value. -/
def asAccess : Option Object → Option Access
  | some (.access a) => some a
  | _ => none

/-- Go `universe.Get(h).(*Project)`. -/
def asProject : Option Object → Option Project
  | some (.project p) => some p
  | _ => none

/-- Go `universe.Get(h).(*Upload)`. -/
def asUpload : Option Object → Option Upload
  | some (.upload u) => some u
  | _ => none

/-- Modelled from the spec: the handle registry behind the Go global `universe`,
defined outside `project.go` and `upload.go`: a counter and the live bindings. -/
structure Universe where
  nexthandle : Nat
  values : List (Nat × Object)
  deriving DecidableEq, Repr

/-- Lookup of a key in a list of bindings: the first binding wins. -/
def lookupHandle (h : Nat) : List (Nat × Object) → Option Object
  | [] => none
  | (k, x) :: rest => if k = h then some x else lookupHandle h rest

/-- Removal of every binding of a key. -/
def eraseHandle (h : Nat) : List (Nat × Object) → List (Nat × Object)
  | [] => []
  | (k, x) :: rest => if k = h then eraseHandle h rest else (k, x) :: eraseHandle h rest

/-- An upper bound of the keys in use. -/
def maxHandle : List (Nat × Object) → Nat
  | [] => 0
  | (k, _) :: rest => max k (maxHandle rest)

/-- Modelled from the spec: `Get(handle)` resolves a handle to its stored
object without removing it and reports not-found (`none`) for unknown or
already-removed handles. -/
def Universe.Get (u : Universe) (h : Nat) : Option Object :=
  lookupHandle h u.values

/-- Modelled from the spec: `Add(object)` allocates a fresh handle value
distinct from all currently-live handles, stores the object and returns the
handle. -/
def Universe.Add (u : Universe) (x : Object) : Nat × Universe :=
  let h := max u.nexthandle (maxHandle u.values) + 1
  (h, { nexthandle := h, values := (h, x) :: u.values })

/-- Modelled from the spec: `Delete(handle)` removes the entry if present;
deleting an unknown handle is a no-op. -/
def Universe.Del (u : Universe) (h : Nat) : Universe :=
  { u with values := eraseHandle h u.values }

/-- The state the exported functions act on; `registry` is the Go global
`universe`. -/
structure World where
  registry : Universe
  trace : List Event
  scopes : List (Option Nat)
  deriving DecidableEq, Repr

/-- Modelled from the spec: `rootScope(identifier)` creates a new top-level
cancellable execution context, independent of all others. -/
def rootScope (w : World) (_name : String) : scope × World :=
  let n := w.scopes.length
  ({ ctx := { node := n, concurrent := none }, cancel := n },
   { w with scopes := w.scopes ++ [none] })

/-- Modelled from the spec: `(parent).child()` creates a new execution context
that is cancelled whenever the parent is cancelled; it inherits the values
the parent context carries. -/
def scope.child (parent : scope) (w : World) : scope × World :=
  let n := w.scopes.length
  ({ ctx := { node := n, concurrent := parent.ctx.concurrent }, cancel := n },
   { w with scopes := w.scopes ++ [some parent.ctx.node] })

/-- Go `s.cancel()`: the cancellation of the scope's node is recorded. -/
def scope.doCancel (s : scope) (w : World) : World :=
  { w with trace := w.trace ++ [Event.cancel s.cancel] }

/-! ## Errors and the C side of the boundary -/

/-- The error classes the boundary layer defines (`ErrNull`, `ErrInvalidHandle`,
`ErrInvalidArg`). -/
inductive ErrClass where
  | Null
  | InvalidHandle
  | InvalidArg
  deriving DecidableEq, Repr

/-- A non-nil Go `error`: one made by a class of the boundary layer, or one
that came out of the wrapped library. -/
inductive GoError where
  | cls (c : ErrClass) (msg : String)
  | lib (e : LibError)
  deriving DecidableEq, Repr

/-- Go `ErrNull`. -/
def ErrNull : ErrClass := ErrClass.Null
/-- Go `ErrInvalidHandle`. -/
def ErrInvalidHandle : ErrClass := ErrClass.InvalidHandle
/-- Go `ErrInvalidArg`. -/
def ErrInvalidArg : ErrClass := ErrClass.InvalidArg

/-- Go `class.New(msg)`. -/
def ErrClass.New (c : ErrClass) (msg : String) : GoError := GoError.cls c msg

/-- Go `error` values of the library become Go `error` values unchanged. -/
def libErr : Option LibError → Option GoError
  | none => none
  | some e => some (GoError.lib e)

namespace C

/-- The error kinds visible to the foreign side. -/
inductive ErrorCode where
  | NullArgument
  | InvalidArgument
  | InvalidHandle
  | Delegated (code : Nat)
  deriving DecidableEq, Repr

/-- C `UplinkError`. -/
structure UplinkError where
  code : ErrorCode
  message : String
  deriving DecidableEq, Repr

/-- C `Error`, the name `upload.go` uses for `UplinkError`. -/
abbrev Error := UplinkError

/-- C structs that hold a handle: `UplinkAccess`, `UplinkProject`, `Project`,
`Upload` all have the single field `_handle`. -/
structure Handle where
  _handle : Nat
  deriving DecidableEq, Repr

/-- C `UplinkAccess`. -/
abbrev UplinkAccess := Handle
/-- C `UplinkProject`. -/
abbrev UplinkProject := Handle
/-- C `Project`, the name `upload.go` uses for `UplinkProject`. -/
abbrev Project := Handle
/-- C `Upload`. -/
abbrev Upload := Handle

/-- C `UplinkProjectResult`. -/
structure UplinkProjectResult where
  project : Option UplinkProject := none
  error : Option UplinkError := none
  deriving DecidableEq, Repr

/-- C `UploadResult`. -/
structure UploadResult where
  upload : Option Upload := none
  error : Option Error := none
  deriving DecidableEq, Repr

/-- C `WriteResult`. -/
structure WriteResult where
  bytes_written : Nat := 0
  error : Option Error := none
  deriving DecidableEq, Repr

/-- C `Object`: the marshalled copy of an `*uplink.Object`. -/
structure Object where
  info : LibObject
  deriving DecidableEq, Repr

/-- C `ObjectResult`. -/
structure ObjectResult where
  object : Option Object := none
  error : Option Error := none
  deriving DecidableEq, Repr

/-- C `UploadOptions`; `expires` is an `int64_t`. -/
structure UploadOptions where
  expires : Int
  deriving DecidableEq, Repr

end C

/-- Modelled from the spec: `mallocError(err)` is null for a nil error and
otherwise a freshly allocated error value whose kind is one of NullArgument,
InvalidArgument, InvalidHandle or Delegated, with the message of `err`. -/
def mallocError : Option GoError → Option C.UplinkError
  | none => none
  | some (.cls .Null m) => some { code := .NullArgument, message := m }
  | some (.cls .InvalidHandle m) => some { code := .InvalidHandle, message := m }
  | some (.cls .InvalidArg m) => some { code := .InvalidArgument, message := m }
  | some (.lib e) => some { code := .Delegated e.code, message := e.msg }

/-- Modelled from the spec: `mallocHandle(h)` allocates a C struct holding `h`. -/
def mallocHandle (h : Nat) : Option C.Handle := some { _handle := h }

/-- Modelled from the spec: `mallocObject(info)` marshals the object
information, null for a nil `info`. -/
def mallocObject : Option LibObject → Option C.Object
  | none => none
  | some i => some { info := i }

/-- Go `int64(x)`: two's-complement wrap to 64 bits. -/
def toInt64 (x : Int) : Int := (x + 2 ^ 63) % 2 ^ 64 - 2 ^ 63

/-- Go `C.size_t(x)`: wrap to the unsigned 64-bit range. -/
def toSizeT (x : Int) : Nat := (x % 2 ^ 64).toNat

/-- Modelled from the spec: `safeConvertToInt(n)` converts a `size_t` to the
native `int` and reports whether the value survived: the round trip gives `n`
back and the result is not negative. -/
def safeConvertToInt (n : Nat) : Int × Bool :=
  let i := toInt64 (n : Int)
  (i, decide (toSizeT i = n) && decide (0 ≤ i))

/-! ## Calls into the wrapped library -/

/-- Go `config.OpenProject(ctx, access)`. -/
def Lib.callOpenProject (lib : Lib) (w : World) (config : Config) (ctx : Context)
    (access : LibAccess) : (LibProject × Option GoError) × World :=
  let r := lib.OpenProject w.trace config ctx access
  ((r.1, libErr r.2), { w with trace := w.trace ++ [Event.OpenProject config ctx access] })

/-- Go `proj.Close()`. -/
def Lib.callClose (lib : Lib) (w : World) (proj : LibProject) : Option GoError × World :=
  (libErr (lib.Close w.trace proj), { w with trace := w.trace ++ [Event.Close proj] })

/-- Go `proj.RevokeAccess(ctx, access)`. -/
def Lib.callRevokeAccess (lib : Lib) (w : World) (proj : LibProject) (ctx : Context)
    (access : LibAccess) : Option GoError × World :=
  (libErr (lib.RevokeAccess w.trace proj ctx access),
   { w with trace := w.trace ++ [Event.RevokeAccess proj ctx access] })

/-- Go `proj.UploadObject(ctx, bucket, key, opts)`. -/
def Lib.callUploadObject (lib : Lib) (w : World) (proj : LibProject) (ctx : Context)
    (bucket key : String) (opts : UploadOptions) : (LibUpload × Option GoError) × World :=
  let r := lib.UploadObject w.trace proj ctx bucket key opts
  ((r.1, libErr r.2),
   { w with trace := w.trace ++ [Event.UploadObject proj ctx bucket key opts] })

/-- Go `up.Write(buf)` for a slice header with the given data pointer, length
and capacity. -/
def Lib.callWrite (lib : Lib) (w : World) (up : LibUpload) (data : Nat) (len cap : Int) :
    (Int × Option GoError) × World :=
  let r := lib.Write w.trace up data len
  ((r.1, libErr r.2), { w with trace := w.trace ++ [Event.Write up data len cap] })

/-- Go `up.Commit()`. -/
def Lib.callCommit (lib : Lib) (w : World) (up : LibUpload) : Option GoError × World :=
  (libErr (lib.Commit w.trace up), { w with trace := w.trace ++ [Event.Commit up] })

/-- Go `up.Abort()`. -/
def Lib.callAbort (lib : Lib) (w : World) (up : LibUpload) : Option GoError × World :=
  (libErr (lib.Abort w.trace up), { w with trace := w.trace ++ [Event.Abort up] })

/-- Go `up.Info()`. -/
def Lib.callInfo (lib : Lib) (w : World) (up : LibUpload) : Option LibObject × World :=
  (lib.Info w.trace up, { w with trace := w.trace ++ [Event.Info up] })

/-- Go `testuplink.WithConcurrentSegmentUploadsConfig(ctx, cfg)` with
`cfg.SchedulerOptions.MaximumConcurrent = m`: a context on the same node that
carries the override. -/
def WithConcurrentSegmentUploadsConfig (ctx : Context) (m : Int) : Context :=
  { ctx with concurrent := some m }

/-- Modelled from the spec: `uplink_free_error` / `free_error` release the C
allocation of an error if there is one; the handle table, the trace and the
scopes are not involved. -/
def uplink_free_error (w : World) (_err : Option C.UplinkError) : World := w

/-- Go `free_error`, the name `upload.go` uses for `uplink_free_error`. -/
def free_error (w : World) (err : Option C.Error) : World := uplink_free_error w err

/-! ## project.go -/

/-- Go `uplink_open_project`. -/
def uplink_open_project (lib : Lib) (w : World) (access : Option C.UplinkAccess)
    (MaximumConcurrent : Option Int) : C.UplinkProjectResult × World :=
  match access with
  | none => ({ error := mallocError (some (ErrNull.New "access")) }, w)
  | some access =>
    match asAccess (w.registry.Get access._handle) with
    | none => ({ error := mallocError (some (ErrInvalidHandle.New "Access")) }, w)
    | some acc =>
      let s0 := rootScope w ""
      let config : Config := {}
      let sc : scope :=
        match MaximumConcurrent with
        | some m => { s0.1 with ctx := WithConcurrentSegmentUploadsConfig s0.1.ctx m }
        | none => s0.1
      let r := lib.callOpenProject s0.2 config sc.ctx acc.Access
      match r.1.2 with
      | some err => ({ error := mallocError (some err) }, r.2)
      | none =>
        let a := r.2.registry.Add (Object.project { scope := sc, Project := r.1.1 })
        ({ project := mallocHandle a.1 }, { r.2 with registry := a.2 })

/-- Go `uplink_close_project`. -/
def uplink_close_project (lib : Lib) (w : World) (project : Option C.UplinkProject) :
    Option C.UplinkError × World :=
  match project with
  | none => (none, w)
  | some project =>
    match asProject (w.registry.Get project._handle) with
    | none => (mallocError (some (ErrInvalidHandle.New "project")), w)
    | some proj =>
      let w1 := proj.scope.doCancel w
      let r := lib.callClose w1 proj.Project
      (mallocError r.1, r.2)

/-- Go `uplink_revoke_access`. -/
def uplink_revoke_access (lib : Lib) (w : World) (project : Option C.UplinkProject)
    (access : Option C.UplinkAccess) : Option C.UplinkError × World :=
  match project with
  | none => (mallocError (some (ErrNull.New "project")), w)
  | some project =>
    match access with
    | none => (mallocError (some (ErrNull.New "access")), w)
    | some access =>
      match asProject (w.registry.Get project._handle) with
      | none => (mallocError (some (ErrInvalidHandle.New "project")), w)
      | some proj =>
        match asAccess (w.registry.Get access._handle) with
        | none => (mallocError (some (ErrInvalidHandle.New "access")), w)
        | some acc =>
          let s := rootScope w ""
          let r := lib.callRevokeAccess s.2 proj.Project s.1.ctx acc.Access
          (mallocError r.1, r.2)

/-- Go `freeProject`. The deferred `universe.Del(project._handle)` runs on
every return after the nil check; the deferred `C.free` releases C memory
only. -/
def freeProject (lib : Lib) (w : World) (project : Option C.UplinkProject) : World :=
  match project with
  | none => w
  | some project =>
    let deferred (w0 : World) : World :=
      { w0 with registry := w0.registry.Del project._handle }
    match asProject (w.registry.Get project._handle) with
    | none => deferred w
    | some proj =>
      let w1 := proj.scope.doCancel w
      let r := lib.callClose w1 proj.Project
      deferred r.2

/-- Go `uplink_free_project_result`. -/
def uplink_free_project_result (lib : Lib) (w : World) (result : C.UplinkProjectResult) :
    World :=
  let w1 := uplink_free_error w result.error
  freeProject lib w1 result.project

/-! ## upload.go -/

/-- The `opts` that `upload_object` builds from its `options` argument. -/
def uploadOptionsOf (options : Option C.UploadOptions) : UploadOptions :=
  let opts : UploadOptions := {}
  match options with
  | none => opts
  | some options =>
    if options.expires > 0 then { opts with Expires := Time.Unix (toInt64 options.expires) 0 }
    else opts

/-- Go `upload_object`. -/
def upload_object (lib : Lib) (w : World) (project : Option C.Project)
    (bucket_name object_key : Option String) (options : Option C.UploadOptions) :
    C.UploadResult × World :=
  match project with
  | none => ({ error := mallocError (some (ErrNull.New "project")) }, w)
  | some project =>
    match bucket_name with
    | none => ({ error := mallocError (some (ErrNull.New "bucket_name")) }, w)
    | some bucket =>
      match object_key with
      | none => ({ error := mallocError (some (ErrNull.New "object_key")) }, w)
      | some key =>
        match asProject (w.registry.Get project._handle) with
        | none => ({ error := mallocError (some (ErrInvalidHandle.New "project")) }, w)
        | some proj =>
          let s := proj.scope.child w
          let opts := uploadOptionsOf options
          let r := lib.callUploadObject s.2 proj.Project s.1.ctx bucket key opts
          match r.1.2 with
          | some err => ({ error := mallocError (some err) }, r.2)
          | none =>
            let a := r.2.registry.Add (Object.upload { scope := s.1, upload := r.1.1 })
            ({ upload := mallocHandle a.1 }, { r.2 with registry := a.2 })

/-- Go `upload_write`. The first statement reads `upload._handle` without a
nil check: on a null `upload` the function panics (`none`). -/
def upload_write (lib : Lib) (w : World) (upload : Option C.Upload) (bytes : Nat)
    (length : Nat) : Option (C.WriteResult × World) :=
  match upload with
  | none => none
  | some upload =>
    match asUpload (w.registry.Get upload._handle) with
    | none => some ({ error := mallocError (some (ErrInvalidHandle.New "upload")) }, w)
    | some up =>
      let c := safeConvertToInt length
      if c.2 = false then
        some ({ error := mallocError (some (ErrInvalidArg.New "length too large")) }, w)
      else
        let r := lib.callWrite w up.upload bytes c.1 c.1
        some ({ bytes_written := toSizeT r.1.1, error := mallocError r.1.2 }, r.2)

/-- Go `upload_commit`; panics (`none`) on a null `upload`. -/
def upload_commit (lib : Lib) (w : World) (upload : Option C.Upload) :
    Option (Option C.Error × World) :=
  match upload with
  | none => none
  | some upload =>
    match asUpload (w.registry.Get upload._handle) with
    | none => some (mallocError (some (ErrInvalidHandle.New "upload")), w)
    | some up =>
      let r := lib.callCommit w up.upload
      some (mallocError r.1, r.2)

/-- Go `upload_abort`; panics (`none`) on a null `upload`. -/
def upload_abort (lib : Lib) (w : World) (upload : Option C.Upload) :
    Option (Option C.Error × World) :=
  match upload with
  | none => none
  | some upload =>
    match asUpload (w.registry.Get upload._handle) with
    | none => some (mallocError (some (ErrInvalidHandle.New "upload")), w)
    | some up =>
      let r := lib.callAbort w up.upload
      some (mallocError r.1, r.2)

/-- Go `upload_info`; panics (`none`) on a null `upload`. -/
def upload_info (lib : Lib) (w : World) (upload : Option C.Upload) :
    Option (C.ObjectResult × World) :=
  match upload with
  | none => none
  | some upload =>
    match asUpload (w.registry.Get upload._handle) with
    | none => some ({ error := mallocError (some (ErrInvalidHandle.New "upload")) }, w)
    | some up =>
      let r := lib.callInfo w up.upload
      some ({ object := mallocObject r.1 }, r.2)

/-- Go `free_write_result`. -/
def free_write_result (w : World) (result : C.WriteResult) : World :=
  free_error w result.error

/-- Go `free_upload`. The deferred `universe.Del(upload._handle)` runs on every
return after the nil check; the deferred `C.free` releases C memory only. -/
def free_upload (w : World) (upload : Option C.Upload) : Option C.Error × World :=
  match upload with
  | none => (none, w)
  | some upload =>
    let deferred (w0 : World) : World :=
      { w0 with registry := w0.registry.Del upload._handle }
    match asUpload (w.registry.Get upload._handle) with
    | none => (mallocError (some (ErrInvalidHandle.New "upload")), deferred w)
    | some up =>
      let w1 := up.scope.doCancel w
      (none, deferred w1)

/-- Go `free_upload_result`. -/
def free_upload_result (w : World) (result : C.UploadResult) : Option C.Error × World :=
  let w1 := free_error w result.error
  free_upload w1 result.upload

/-- The scope `uplink_open_project` builds in state `w`: `rootScope("")`, its
context replaced by the one carrying the override when `MaximumConcurrent` is
not null. -/
def openScope (w : World) (MaximumConcurrent : Option Int) : scope :=
  match MaximumConcurrent with
  | some m =>
    { (rootScope w "").1 with
      ctx := WithConcurrentSegmentUploadsConfig (rootScope w "").1.ctx m }
  | none => (rootScope w "").1

/-- The scope `upload_object` builds in state `w` for a project `p`:
`proj.scope.child()`. -/
def uploadScope (w : World) (p : Project) : scope := (p.scope.child w).1

/-! ## A concrete library and concrete states for evaluation -/

/-- A library in which every call succeeds: projects and uploads are numbered
by the length of the history, a write consumes the whole buffer. -/
def okLib : Lib where
  OpenProject := fun t _ _ _ => (t.length + 100, none)
  Close := fun _ _ => none
  RevokeAccess := fun _ _ _ _ => none
  UploadObject := fun t _ _ _ _ _ => (t.length + 200, none)
  Write := fun _ _ _ len => (len, none)
  Commit := fun _ _ => none
  Abort := fun _ _ => none
  Info := fun _ up => some up

/-- The state of a fresh process: nothing registered, nothing done. -/
def emptyWorld : World :=
  { registry := { nexthandle := 0, values := [] }, trace := [], scopes := [] }

/-- A state with an access grant at handle 1, an open project at handle 2
(scope node 0) and an upload of that project at handle 3 (scope node 1). -/
def sampleWorld : World :=
  { registry :=
      { nexthandle := 3,
        values :=
          [(3, Object.upload { scope := { ctx := { node := 1, concurrent := none }, cancel := 1 },
                               upload := 202 }),
           (2, Object.project { scope := { ctx := { node := 0, concurrent := none }, cancel := 0 },
                                Project := 101 }),
           (1, Object.access { Access := 50 })] },
    trace := [Event.OpenProject {} { node := 0, concurrent := none } 50,
              Event.UploadObject 101 { node := 1, concurrent := none } "b" "k" {}],
    scopes := [none, some 0] }

/-! ## Auxiliary facts: type assertions and the handle table -/

theorem asAccess_none_of_ne {o : Option Object} (h : ∀ a, o ≠ some (Object.access a)) :
    asAccess o = none := by
  cases o with
  | none => rfl
  | some x =>
    cases x with
    | access a => exact absurd rfl (h a)
    | project p => rfl
    | upload u => rfl
    | other k => rfl

theorem asProject_none_of_ne {o : Option Object} (h : ∀ p, o ≠ some (Object.project p)) :
    asProject o = none := by
  cases o with
  | none => rfl
  | some x =>
    cases x with
    | access a => rfl
    | project p => exact absurd rfl (h p)
    | upload u => rfl
    | other k => rfl

theorem asUpload_none_of_ne {o : Option Object} (h : ∀ u, o ≠ some (Object.upload u)) :
    asUpload o = none := by
  cases o with
  | none => rfl
  | some x =>
    cases x with
    | access a => rfl
    | project p => rfl
    | upload u => exact absurd rfl (h u)
    | other k => rfl

theorem asAccess_eq_some {o : Option Object} {a : Access} :
    asAccess o = some a ↔ o = some (Object.access a) := by
  cases o with
  | none => simp [asAccess]
  | some x => cases x <;> simp [asAccess]

theorem asProject_eq_some {o : Option Object} {p : Project} :
    asProject o = some p ↔ o = some (Object.project p) := by
  cases o with
  | none => simp [asProject]
  | some x => cases x <;> simp [asProject]

theorem asUpload_eq_some {o : Option Object} {u : Upload} :
    asUpload o = some u ↔ o = some (Object.upload u) := by
  cases o with
  | none => simp [asUpload]
  | some x => cases x <;> simp [asUpload]

theorem lookupHandle_eraseHandle_self (h : Nat) (l : List (Nat × Object)) :
    lookupHandle h (eraseHandle h l) = none := by
  induction l with
  | nil => rfl
  | cons e rest ih =>
    obtain ⟨k, x⟩ := e
    by_cases hk : k = h
    · simp [eraseHandle, hk, ih]
    · simp [eraseHandle, lookupHandle, hk, ih]

theorem lookupHandle_eraseHandle_ne {h k : Nat} (hne : k ≠ h) (l : List (Nat × Object)) :
    lookupHandle k (eraseHandle h l) = lookupHandle k l := by
  induction l with
  | nil => rfl
  | cons e rest ih =>
    obtain ⟨j, x⟩ := e
    by_cases hj : j = h
    · have hjk : ¬ j = k := fun e => hne (e ▸ hj)
      simp only [eraseHandle, lookupHandle, if_pos hj, if_neg hjk, ih]
    · by_cases hjk : j = k
      · simp only [eraseHandle, lookupHandle, if_neg hj, if_pos hjk]
      · simp only [eraseHandle, lookupHandle, if_neg hj, if_neg hjk, ih]

theorem eraseHandle_idem (h : Nat) (l : List (Nat × Object)) :
    eraseHandle h (eraseHandle h l) = eraseHandle h l := by
  induction l with
  | nil => rfl
  | cons e rest ih =>
    obtain ⟨k, x⟩ := e
    by_cases hk : k = h
    · simp [eraseHandle, hk, ih]
    · simp [eraseHandle, hk, ih]

theorem le_maxHandle_of_lookup {k : Nat} {x : Object} (l : List (Nat × Object))
    (hl : lookupHandle k l = some x) : k ≤ maxHandle l := by
  induction l with
  | nil => simp [lookupHandle] at hl
  | cons e rest ih =>
    obtain ⟨j, y⟩ := e
    by_cases hj : j = k
    · simp [maxHandle, hj]
    · simp only [lookupHandle, hj, if_false] at hl
      have := ih hl
      simp only [maxHandle]
      omega

theorem Universe.Get_Del_self (u : Universe) (h : Nat) : (u.Del h).Get h = none :=
  lookupHandle_eraseHandle_self h u.values

theorem Universe.Get_Del_ne (u : Universe) {h k : Nat} (hne : k ≠ h) :
    (u.Del h).Get k = u.Get k :=
  lookupHandle_eraseHandle_ne hne u.values

theorem Universe.Del_Del (u : Universe) (h : Nat) : (u.Del h).Del h = u.Del h := by
  simp [Universe.Del, eraseHandle_idem]

theorem Universe.Get_Add_self (u : Universe) (x : Object) :
    (u.Add x).2.Get (u.Add x).1 = some x := by
  simp [Universe.Add, Universe.Get, lookupHandle]

theorem Universe.Get_Add_fresh (u : Universe) (x : Object) : u.Get (u.Add x).1 = none := by
  cases hg : u.Get (u.Add x).1 with
  | none => rfl
  | some y =>
    have := le_maxHandle_of_lookup u.values hg
    simp only [Universe.Add] at this
    omega

theorem Universe.Get_Add_ne (u : Universe) (x : Object) {k : Nat} (hne : k ≠ (u.Add x).1) :
    (u.Add x).2.Get k = u.Get k := by
  simp only [Universe.Add, Universe.Get, lookupHandle] at hne ⊢
  rw [if_neg (fun e => hne e.symm)]

/-! ## Auxiliary facts: what the free functions do to the state -/

theorem free_upload_registry (w : World) (c : C.Upload) :
    (free_upload w (some c)).2.registry = w.registry.Del c._handle := by
  cases hu : asUpload (w.registry.Get c._handle) <;> simp [free_upload, hu, scope.doCancel]

theorem free_upload_resolved (w : World) (c : C.Upload) (u : Upload)
    (hu : asUpload (w.registry.Get c._handle) = some u) :
    free_upload w (some c) =
      (none, { registry := w.registry.Del c._handle,
               trace := w.trace ++ [Event.cancel u.scope.cancel],
               scopes := w.scopes }) := by
  simp [free_upload, hu, scope.doCancel]

theorem freeProject_registry (lib : Lib) (w : World) (c : C.UplinkProject) :
    (freeProject lib w (some c)).registry = w.registry.Del c._handle := by
  cases hu : asProject (w.registry.Get c._handle) <;>
    simp [freeProject, hu, scope.doCancel, Lib.callClose]

theorem freeProject_resolved (lib : Lib) (w : World) (c : C.UplinkProject) (p : Project)
    (hu : asProject (w.registry.Get c._handle) = some p) :
    freeProject lib w (some c) =
      { registry := w.registry.Del c._handle,
        trace := w.trace ++ [Event.cancel p.scope.cancel, Event.Close p.Project],
        scopes := w.scopes } := by
  simp [freeProject, hu, scope.doCancel, Lib.callClose]

theorem asUpload_Get_Del_self (u : Universe) (h : Nat) :
    asUpload ((u.Del h).Get h) = none := by
  rw [Universe.Get_Del_self]; rfl

theorem asProject_Get_Del_self (u : Universe) (h : Nat) :
    asProject ((u.Del h).Get h) = none := by
  rw [Universe.Get_Del_self]; rfl

/-! ## Auxiliary facts: integer conversions -/

theorem toInt64_of_lt {n : Nat} (h : n < 2 ^ 63) : toInt64 (n : Int) = n := by
  unfold toInt64
  norm_num at h ⊢
  omega

theorem safeConvertToInt_snd (n : Nat) :
    (safeConvertToInt n).2 = decide (n < 2 ^ 63) := by
  unfold safeConvertToInt toInt64 toSizeT
  by_cases h : n < 2 ^ 63
  · have h1 : decide (n < 2 ^ 63) = true := decide_eq_true h
    rw [h1]
    norm_num at h ⊢
    omega
  · have h1 : decide (n < 2 ^ 63) = false := decide_eq_false h
    rw [h1]
    norm_num at h ⊢
    omega

theorem safeConvertToInt_fst {n : Nat} (h : n < 2 ^ 63) : (safeConvertToInt n).1 = n :=
  toInt64_of_lt h

theorem toSizeT_of_nonneg {x : Int} (h0 : 0 ≤ x) (h1 : x < 2 ^ 64) :
    ((toSizeT x : Nat) : Int) = x := by
  unfold toSizeT
  norm_num at h1 ⊢
  omega

/-! ## Auxiliary facts: the paths of the two creating operations -/

theorem uplink_open_project_failed (lib : Lib) (w : World) (c : C.UplinkAccess) (a : Access)
    (mc : Option Int) (e : LibError)
    (ha : asAccess (w.registry.Get c._handle) = some a)
    (hout : (lib.OpenProject w.trace {} (openScope w mc).ctx a.Access).2 = some e) :
    uplink_open_project lib w (some c) mc =
      ({ project := none, error := some ⟨C.ErrorCode.Delegated e.code, e.msg⟩ },
       { registry := w.registry,
         trace := w.trace ++ [Event.OpenProject {} (openScope w mc).ctx a.Access],
         scopes := w.scopes ++ [none] }) := by
  cases mc <;>
    simp_all [uplink_open_project, rootScope, Lib.callOpenProject, openScope, libErr,
      mallocError, WithConcurrentSegmentUploadsConfig]

theorem uplink_open_project_opened (lib : Lib) (w : World) (c : C.UplinkAccess) (a : Access)
    (mc : Option Int)
    (ha : asAccess (w.registry.Get c._handle) = some a)
    (hout : (lib.OpenProject w.trace {} (openScope w mc).ctx a.Access).2 = none) :
    uplink_open_project lib w (some c) mc =
      ({ project := some ⟨(w.registry.Add (Object.project
            { scope := openScope w mc,
              Project := (lib.OpenProject w.trace {} (openScope w mc).ctx a.Access).1 })).1⟩,
         error := none },
       { registry := (w.registry.Add (Object.project
            { scope := openScope w mc,
              Project := (lib.OpenProject w.trace {} (openScope w mc).ctx a.Access).1 })).2,
         trace := w.trace ++ [Event.OpenProject {} (openScope w mc).ctx a.Access],
         scopes := w.scopes ++ [none] }) := by
  cases mc <;>
    simp_all [uplink_open_project, rootScope, Lib.callOpenProject, openScope, libErr,
      mallocHandle, WithConcurrentSegmentUploadsConfig]

theorem upload_object_failed (lib : Lib) (w : World) (c : C.Project) (p : Project)
    (bucket key : String) (options : Option C.UploadOptions) (e : LibError)
    (hp : asProject (w.registry.Get c._handle) = some p)
    (hout : (lib.UploadObject w.trace p.Project (uploadScope w p).ctx bucket key
      (uploadOptionsOf options)).2 = some e) :
    upload_object lib w (some c) (some bucket) (some key) options =
      ({ upload := none, error := some ⟨C.ErrorCode.Delegated e.code, e.msg⟩ },
       { registry := w.registry,
         trace := w.trace ++ [Event.UploadObject p.Project (uploadScope w p).ctx bucket key
           (uploadOptionsOf options)],
         scopes := w.scopes ++ [some p.scope.ctx.node] }) := by
  simp_all [upload_object, scope.child, Lib.callUploadObject, uploadScope, libErr,
    mallocError]

theorem upload_object_started (lib : Lib) (w : World) (c : C.Project) (p : Project)
    (bucket key : String) (options : Option C.UploadOptions)
    (hp : asProject (w.registry.Get c._handle) = some p)
    (hout : (lib.UploadObject w.trace p.Project (uploadScope w p).ctx bucket key
      (uploadOptionsOf options)).2 = none) :
    upload_object lib w (some c) (some bucket) (some key) options =
      ({ upload := some ⟨(w.registry.Add (Object.upload
            { scope := uploadScope w p,
              upload := (lib.UploadObject w.trace p.Project (uploadScope w p).ctx bucket key
                (uploadOptionsOf options)).1 })).1⟩,
         error := none },
       { registry := (w.registry.Add (Object.upload
            { scope := uploadScope w p,
              upload := (lib.UploadObject w.trace p.Project (uploadScope w p).ctx bucket key
                (uploadOptionsOf options)).1 })).2,
         trace := w.trace ++ [Event.UploadObject p.Project (uploadScope w p).ctx bucket key
           (uploadOptionsOf options)],
         scopes := w.scopes ++ [some p.scope.ctx.node] }) := by
  simp_all [upload_object, scope.child, Lib.callUploadObject, uploadScope, libErr,
    mallocHandle]

/-! ## Invalid handles -/

/-- C1: in every state, for a handle `h` that is absent from the registry or
bound to an object of another variant than the operation expects, each of
`uplink_open_project` (access handle), `uplink_close_project`,
`uplink_revoke_access` (project handle; access handle when the project handle
resolves), `upload_object` (project handle), `upload_write`, `upload_commit`,
`upload_abort` and `upload_info`, called with non-null pointers, returns an
InvalidHandle error with a null or zero payload and returns the state it was
given: the trace has no new library call and the registry is unchanged. -/
theorem invalid_handle_rejected (lib : Lib) (w : World) (h : Nat) :
    ((∀ a, w.registry.Get h ≠ some (Object.access a)) →
      (∀ mc, uplink_open_project lib w (some ⟨h⟩) mc =
        ({ project := none, error := some ⟨C.ErrorCode.InvalidHandle, "Access"⟩ }, w)) ∧
      (∀ hp p, w.registry.Get hp = some (Object.project p) →
        uplink_revoke_access lib w (some ⟨hp⟩) (some ⟨h⟩) =
          (some ⟨C.ErrorCode.InvalidHandle, "access"⟩, w))) ∧
    ((∀ p, w.registry.Get h ≠ some (Object.project p)) →
      uplink_close_project lib w (some ⟨h⟩) =
        (some ⟨C.ErrorCode.InvalidHandle, "project"⟩, w) ∧
      (∀ access, uplink_revoke_access lib w (some ⟨h⟩) (some access) =
        (some ⟨C.ErrorCode.InvalidHandle, "project"⟩, w)) ∧
      (∀ bucket key options,
        upload_object lib w (some ⟨h⟩) (some bucket) (some key) options =
          ({ upload := none, error := some ⟨C.ErrorCode.InvalidHandle, "project"⟩ }, w))) ∧
    ((∀ u, w.registry.Get h ≠ some (Object.upload u)) →
      (∀ bytes length, upload_write lib w (some ⟨h⟩) bytes length =
        some ({ bytes_written := 0,
                error := some ⟨C.ErrorCode.InvalidHandle, "upload"⟩ }, w)) ∧
      upload_commit lib w (some ⟨h⟩) =
        some (some ⟨C.ErrorCode.InvalidHandle, "upload"⟩, w) ∧
      upload_abort lib w (some ⟨h⟩) =
        some (some ⟨C.ErrorCode.InvalidHandle, "upload"⟩, w) ∧
      upload_info lib w (some ⟨h⟩) =
        some ({ object := none, error := some ⟨C.ErrorCode.InvalidHandle, "upload"⟩ }, w)) := by
  refine ⟨fun hA => ?_, fun hP => ?_, fun hU => ?_⟩
  · have ha := asAccess_none_of_ne hA
    refine ⟨fun mc => ?_, fun hp p hget => ?_⟩
    · simp [uplink_open_project, ha, mallocError, ErrInvalidHandle, ErrClass.New]
    · simp [uplink_revoke_access, hget, asProject, ha, mallocError, ErrInvalidHandle,
        ErrClass.New]
  · have hp := asProject_none_of_ne hP
    refine ⟨?_, fun access => ?_, fun bucket key options => ?_⟩
    · simp [uplink_close_project, hp, mallocError, ErrInvalidHandle, ErrClass.New]
    · simp [uplink_revoke_access, hp, mallocError, ErrInvalidHandle, ErrClass.New]
    · simp [upload_object, hp, mallocError, ErrInvalidHandle, ErrClass.New]
  · have hu := asUpload_none_of_ne hU
    refine ⟨fun bytes length => ?_, ?_, ?_, ?_⟩
    · simp [upload_write, hu, mallocError, ErrInvalidHandle, ErrClass.New]
    · simp [upload_commit, hu, mallocError, ErrInvalidHandle, ErrClass.New]
    · simp [upload_abort, hu, mallocError, ErrInvalidHandle, ErrClass.New]
    · simp [upload_info, hu, mallocError, ErrInvalidHandle, ErrClass.New]

/-- Witness for C1: handle 9 is bound to nothing in `sampleWorld`, handle 1 is
bound to an Access (not a Project), handle 2 to a Project (not an Upload). -/
theorem invalid_handle_rejected_witness :
    uplink_open_project okLib sampleWorld (some ⟨9⟩) none =
        ({ project := none, error := some ⟨C.ErrorCode.InvalidHandle, "Access"⟩ },
          sampleWorld) ∧
      uplink_close_project okLib sampleWorld (some ⟨1⟩) =
        (some ⟨C.ErrorCode.InvalidHandle, "project"⟩, sampleWorld) ∧
      upload_commit okLib sampleWorld (some ⟨2⟩) =
        some (some ⟨C.ErrorCode.InvalidHandle, "upload"⟩, sampleWorld) :=
  ⟨((invalid_handle_rejected okLib sampleWorld 9).1
      (fun a e => by simp [sampleWorld, Universe.Get, lookupHandle] at e)).1 none,
   ((invalid_handle_rejected okLib sampleWorld 1).2.1
      (fun p e => by simp [sampleWorld, Universe.Get, lookupHandle] at e)).1,
   ((invalid_handle_rejected okLib sampleWorld 2).2.2
      (fun u e => by simp [sampleWorld, Universe.Get, lookupHandle] at e)).2.1⟩

/-! ## Null arguments -/

/-- C2: in every state, `upload_object` with a null `project`, a null
`bucket_name` or a null `object_key` returns a null upload handle and a
NullArgument error and returns the state it was given (nothing registered, no
library call), whatever the project handle is bound to; the same holds for
`uplink_open_project` with a null `access` and for `uplink_revoke_access`
with a null `project` or a null `access`. -/
theorem null_argument_rejected (lib : Lib) (w : World) :
    (∀ project bucket_name object_key options,
      (project = none ∨ bucket_name = none ∨ object_key = none) →
      ∃ msg, upload_object lib w project bucket_name object_key options =
        ({ upload := none, error := some ⟨C.ErrorCode.NullArgument, msg⟩ }, w)) ∧
    (∀ mc, uplink_open_project lib w none mc =
      ({ project := none, error := some ⟨C.ErrorCode.NullArgument, "access"⟩ }, w)) ∧
    (∀ project access, (project = none ∨ access = none) →
      ∃ msg, uplink_revoke_access lib w project access =
        (some ⟨C.ErrorCode.NullArgument, msg⟩, w)) := by
  refine ⟨fun project bucket key options hnull => ?_, fun mc => ?_,
    fun project access hnull => ?_⟩
  · cases project with
    | none => exact ⟨"project", by simp [upload_object, mallocError, ErrNull, ErrClass.New]⟩
    | some pr =>
      cases bucket with
      | none =>
        exact ⟨"bucket_name", by simp [upload_object, mallocError, ErrNull, ErrClass.New]⟩
      | some b =>
        cases key with
        | none =>
          exact ⟨"object_key", by simp [upload_object, mallocError, ErrNull, ErrClass.New]⟩
        | some k => simp at hnull
  · simp [uplink_open_project, mallocError, ErrNull, ErrClass.New]
  · cases project with
    | none =>
      exact ⟨"project", by simp [uplink_revoke_access, mallocError, ErrNull, ErrClass.New]⟩
    | some pr =>
      cases access with
      | none =>
        exact ⟨"access", by simp [uplink_revoke_access, mallocError, ErrNull, ErrClass.New]⟩
      | some a => simp at hnull

/-- Witness for C2: a null bucket name with a project handle that does not
resolve. -/
theorem null_argument_rejected_witness :
    ∃ msg, upload_object okLib emptyWorld (some ⟨7⟩) none (some "k") none =
      ({ upload := none, error := some ⟨C.ErrorCode.NullArgument, msg⟩ }, emptyWorld) :=
  (null_argument_rejected okLib emptyWorld).1 (some ⟨7⟩) none (some "k") none
    (Or.inr (Or.inl rfl))

/-! ## Closing a project and using its handle again -/

/-- C3, as stated, fails: in `sampleWorld` handle 2 resolves to a Project and
handle 1 to an Access; after `uplink_close_project` on handle 2,
`uplink_revoke_access` with that same project handle returns no error at all
(not InvalidHandle) and the RevokeAccess call on library project 101 is in the
trace. -/
theorem revoke_after_close_counterexample :
    sampleWorld.registry.Get 2 =
        some (Object.project
          { scope := { ctx := { node := 0, concurrent := none }, cancel := 0 },
            Project := 101 }) ∧
      (uplink_revoke_access okLib (uplink_close_project okLib sampleWorld (some ⟨2⟩)).2
        (some ⟨2⟩) (some ⟨1⟩)).1 = none ∧
      (uplink_revoke_access okLib (uplink_close_project okLib sampleWorld (some ⟨2⟩)).2
        (some ⟨2⟩) (some ⟨1⟩)).2.trace =
        sampleWorld.trace ++
          [Event.cancel 0, Event.Close 101,
           Event.RevokeAccess 101 { node := 2, concurrent := none } 50] := by
  decide

/-- C3, amended: in every state in which a project handle `h` resolves to a
Project, `uplink_close_project` on `h` leaves the registry as it was, so a
following `uplink_revoke_access` with `h` and an access handle that resolves
to an Access delegates RevokeAccess to the library and returns what the
library reported; it is after `freeProject` / `uplink_free_project_result` on
`h` that `uplink_revoke_access` with `h` and any non-null access returns an
InvalidHandle error and delegates nothing. -/
theorem revoke_after_close_or_free (lib : Lib) (w : World) (h : Nat) (p : Project)
    (hget : w.registry.Get h = some (Object.project p)) :
    ((uplink_close_project lib w (some ⟨h⟩)).2.registry = w.registry ∧
      ∀ ha a, w.registry.Get ha = some (Object.access a) →
        uplink_revoke_access lib (uplink_close_project lib w (some ⟨h⟩)).2
            (some ⟨h⟩) (some ⟨ha⟩) =
          (mallocError (libErr (lib.RevokeAccess
              (w.trace ++ [Event.cancel p.scope.cancel, Event.Close p.Project]) p.Project
              { node := w.scopes.length, concurrent := none } a.Access)),
           { registry := w.registry,
             trace := w.trace ++ [Event.cancel p.scope.cancel, Event.Close p.Project,
               Event.RevokeAccess p.Project { node := w.scopes.length, concurrent := none }
                 a.Access],
             scopes := w.scopes ++ [none] })) ∧
    (∀ access,
      uplink_revoke_access lib (freeProject lib w (some ⟨h⟩)) (some ⟨h⟩) (some access) =
        (some ⟨C.ErrorCode.InvalidHandle, "project"⟩, freeProject lib w (some ⟨h⟩))) ∧
    (∀ err access,
      uplink_revoke_access lib
          (uplink_free_project_result lib w { project := some ⟨h⟩, error := err })
          (some ⟨h⟩) (some access) =
        (some ⟨C.ErrorCode.InvalidHandle, "project"⟩,
          uplink_free_project_result lib w { project := some ⟨h⟩, error := err })) := by
  have hp : asProject (w.registry.Get h) = some p := asProject_eq_some.mpr hget
  have hfree : freeProject lib w (some ⟨h⟩) =
      { registry := w.registry.Del h,
        trace := w.trace ++ [Event.cancel p.scope.cancel, Event.Close p.Project],
        scopes := w.scopes } := by
    simp [freeProject, hp, scope.doCancel, Lib.callClose]
  have hgone : asProject ((freeProject lib w (some ⟨h⟩)).registry.Get h) = none := by
    rw [hfree]
    simp [Universe.Get_Del_self, asProject]
  refine ⟨⟨?_, fun ha a hacc => ?_⟩, fun access => ?_, fun err access => ?_⟩
  · simp [uplink_close_project, hp, scope.doCancel, Lib.callClose]
  · simp [uplink_close_project, uplink_revoke_access, hp, hget, hacc, asProject, asAccess,
      scope.doCancel, Lib.callClose, Lib.callRevokeAccess, rootScope]
  · simp [uplink_revoke_access, hgone, mallocError, ErrInvalidHandle, ErrClass.New]
  · simp [uplink_free_project_result, uplink_free_error, uplink_revoke_access, hgone,
      mallocError, ErrInvalidHandle, ErrClass.New]

/-- Witness for the amended C3 at `sampleWorld`, project handle 2. -/
theorem revoke_after_close_or_free_witness :
    (uplink_close_project okLib sampleWorld (some ⟨2⟩)).2.registry = sampleWorld.registry ∧
      uplink_revoke_access okLib (freeProject okLib sampleWorld (some ⟨2⟩)) (some ⟨2⟩)
          (some ⟨1⟩) =
        (some ⟨C.ErrorCode.InvalidHandle, "project"⟩,
          freeProject okLib sampleWorld (some ⟨2⟩)) :=
  ⟨(revoke_after_close_or_free okLib sampleWorld 2
      { scope := { ctx := { node := 0, concurrent := none }, cancel := 0 }, Project := 101 }
      (by decide)).1.1,
   (revoke_after_close_or_free okLib sampleWorld 2
      { scope := { ctx := { node := 0, concurrent := none }, cancel := 0 }, Project := 101 }
      (by decide)).2.1 ⟨1⟩⟩

/-! ## Null upload pointers -/

/-- C4 fails on the code: `upload_write`, `upload_commit`, `upload_abort` and
`upload_info` read `upload._handle` before any check, so on a null `upload`
they panic with a nil dereference instead of returning a NullArgument
error, in every state and for every library. -/
theorem upload_ops_null_upload_panic (lib : Lib) (w : World) (bytes length : Nat) :
    upload_write lib w none bytes length = none ∧
      upload_commit lib w none = none ∧
      upload_abort lib w none = none ∧
      upload_info lib w none = none :=
  ⟨rfl, rfl, rfl, rfl⟩

/-! ## Freeing results -/

/-- C6: in every state and for every non-null handle-holding struct with
handle `h`, after `free_upload`, `free_upload_result`, `freeProject` and
`uplink_free_project_result` the registry no longer resolves `h`, whatever `h`
was bound to before, and every other handle resolves to the same object as
before the call. -/
theorem free_removes_handle (lib : Lib) (w : World) (h : Nat) (err : Option C.UplinkError) :
    ((free_upload w (some ⟨h⟩)).2.registry.Get h = none ∧
      ∀ k, k ≠ h → (free_upload w (some ⟨h⟩)).2.registry.Get k = w.registry.Get k) ∧
    ((free_upload_result w { upload := some ⟨h⟩, error := err }).2.registry.Get h = none ∧
      ∀ k, k ≠ h →
        (free_upload_result w { upload := some ⟨h⟩, error := err }).2.registry.Get k =
          w.registry.Get k) ∧
    ((freeProject lib w (some ⟨h⟩)).registry.Get h = none ∧
      ∀ k, k ≠ h → (freeProject lib w (some ⟨h⟩)).registry.Get k = w.registry.Get k) ∧
    ((uplink_free_project_result lib w { project := some ⟨h⟩, error := err }).registry.Get h
        = none ∧
      ∀ k, k ≠ h →
        (uplink_free_project_result lib w { project := some ⟨h⟩, error := err }).registry.Get k
          = w.registry.Get k) := by
  have hup : (free_upload w (some ⟨h⟩)).2.registry = w.registry.Del h :=
    free_upload_registry w ⟨h⟩
  have hpr : (freeProject lib w (some ⟨h⟩)).registry = w.registry.Del h :=
    freeProject_registry lib w ⟨h⟩
  have hupr : (free_upload_result w { upload := some ⟨h⟩, error := err }).2.registry =
      w.registry.Del h := hup
  have hprr : (uplink_free_project_result lib w
      { project := some ⟨h⟩, error := err }).registry = w.registry.Del h := hpr
  rw [hup, hupr, hpr, hprr]
  exact ⟨⟨Universe.Get_Del_self _ _, fun k hk => Universe.Get_Del_ne _ hk⟩,
    ⟨Universe.Get_Del_self _ _, fun k hk => Universe.Get_Del_ne _ hk⟩,
    ⟨Universe.Get_Del_self _ _, fun k hk => Universe.Get_Del_ne _ hk⟩,
    ⟨Universe.Get_Del_self _ _, fun k hk => Universe.Get_Del_ne _ hk⟩⟩

/-- Witness for C6: freeing the upload at handle 3 of `sampleWorld` leaves the
project at handle 2 where it was. -/
theorem free_removes_handle_witness :
    (free_upload sampleWorld (some ⟨3⟩)).2.registry.Get 3 = none ∧
      (free_upload sampleWorld (some ⟨3⟩)).2.registry.Get 2 = sampleWorld.registry.Get 2 :=
  ⟨(free_removes_handle okLib sampleWorld 3 none).1.1,
   (free_removes_handle okLib sampleWorld 3 none).1.2 2 (by decide)⟩

/-! ## Write lengths -/

/-- C7: for every upload handle that resolves to an Upload, `safeConvertToInt`
succeeds exactly on the lengths below `2 ^ 63` (those that fit the native
signed integer). When it fails, `upload_write` returns an InvalidArgument
error with `bytes_written = 0` and the state it was given, so the library's
Write is never called. When it succeeds, the only new effect is one Write call
on the upload's library object with a buffer whose length and capacity are
exactly `length`, the error is the library's error, and `bytes_written` is
`C.size_t(n)` for the count `n` the library returned, which equals `n` for
every count a Write can return (`0 ≤ n ≤ len(p)`). -/
theorem upload_write_length (lib : Lib) (w : World) (h : Nat) (up : Upload) (bytes length : Nat)
    (hget : w.registry.Get h = some (Object.upload up)) :
    ((safeConvertToInt length).2 = true ↔ length < 2 ^ 63) ∧
    ((safeConvertToInt length).2 = false →
      upload_write lib w (some ⟨h⟩) bytes length =
        some ({ bytes_written := 0,
                error := some ⟨C.ErrorCode.InvalidArgument, "length too large"⟩ }, w)) ∧
    ((safeConvertToInt length).2 = true →
      ∃ r, upload_write lib w (some ⟨h⟩) bytes length = some r ∧
        r.2 = { w with trace := w.trace ++ [Event.Write up.upload bytes length length] } ∧
        r.1.error = mallocError (libErr (lib.Write w.trace up.upload bytes length).2) ∧
        r.1.bytes_written = toSizeT (lib.Write w.trace up.upload bytes length).1 ∧
        (0 ≤ (lib.Write w.trace up.upload bytes length).1 →
          (lib.Write w.trace up.upload bytes length).1 ≤ length →
          (r.1.bytes_written : Int) = (lib.Write w.trace up.upload bytes length).1)) := by
  have hu : asUpload (w.registry.Get h) = some up := asUpload_eq_some.mpr hget
  refine ⟨by simp [safeConvertToInt_snd], fun hbad => ?_, fun hok => ?_⟩
  · simp [upload_write, hu, hbad, mallocError, ErrInvalidArg, ErrClass.New]
  · have hlt : length < 2 ^ 63 := by simpa [safeConvertToInt_snd] using hok
    have hfst : (safeConvertToInt length).1 = length := safeConvertToInt_fst hlt
    refine ⟨_, by simp [upload_write, hu, hok, Lib.callWrite, hfst]; rfl, rfl, rfl, rfl, ?_⟩
    intro h0 hle
    refine toSizeT_of_nonneg h0 ?_
    have : ((length : Nat) : Int) < 2 ^ 64 := by
      have : (length : Int) < 2 ^ 63 := by exact_mod_cast hlt
      norm_num at this ⊢
      omega
    omega

/-- Witness for C7: writing 10 bytes to the upload at handle 3 of `sampleWorld`
calls Write with length 10 and reports 10 bytes written; a length of `2 ^ 63`
is refused. -/
theorem upload_write_length_witness :
    upload_write okLib sampleWorld (some ⟨3⟩) 4096 (2 ^ 63) =
        some ({ bytes_written := 0,
                error := some ⟨C.ErrorCode.InvalidArgument, "length too large"⟩ },
          sampleWorld) ∧
      ∃ r, upload_write okLib sampleWorld (some ⟨3⟩) 4096 10 = some r ∧
        r.2 = { sampleWorld with
                trace := sampleWorld.trace ++ [Event.Write 202 4096 10 10] } ∧
        r.1.error = none ∧ r.1.bytes_written = 10 :=
  ⟨(upload_write_length okLib sampleWorld 3
      { scope := { ctx := { node := 1, concurrent := none }, cancel := 1 }, upload := 202 }
      4096 (2 ^ 63) (by decide)).2.1 (by decide),
   by
    obtain ⟨r, h1, h2, h3, _, h4⟩ := (upload_write_length okLib sampleWorld 3
      { scope := { ctx := { node := 1, concurrent := none }, cancel := 1 }, upload := 202 }
      4096 10 (by decide)).2.2 (by decide)
    refine ⟨r, h1, h2, h3, ?_⟩
    have h5 : (r.1.bytes_written : Int) = (10 : Nat) := h4 (by decide) (by decide)
    exact Int.ofNat.inj h5⟩

/-! ## The result envelope of the creating operations -/

/-- C8: for every input, state and library, the result of
`uplink_open_project` and of `upload_object` has exactly one of payload and
error non-null. On each failure path (a null argument, a handle that does not
resolve, an error from the library) the payload is null, the error is not and
the registry is unchanged; on the success path the error is null and the
payload is a handle that was not in the registry before and now resolves to
the façade just created (the new scope and the object the library returned). -/
theorem result_envelope_exactly_one (lib : Lib) (w : World) :
    (∀ access mc,
      ((access = none ∨
          (∃ c, access = some c ∧ ∀ a, w.registry.Get c._handle ≠ some (Object.access a)) ∨
          (∃ c a e, access = some c ∧ w.registry.Get c._handle = some (Object.access a) ∧
            (lib.OpenProject w.trace {} (openScope w mc).ctx a.Access).2 = some e)) ∧
        (∃ e, (uplink_open_project lib w access mc).1 = { project := none, error := some e }) ∧
        (uplink_open_project lib w access mc).2.registry = w.registry) ∨
      (∃ c a h, access = some c ∧ w.registry.Get c._handle = some (Object.access a) ∧
        (lib.OpenProject w.trace {} (openScope w mc).ctx a.Access).2 = none ∧
        (uplink_open_project lib w access mc).1 = { project := some ⟨h⟩, error := none } ∧
        w.registry.Get h = none ∧
        (uplink_open_project lib w access mc).2.registry.Get h =
          some (Object.project
            { scope := openScope w mc,
              Project := (lib.OpenProject w.trace {} (openScope w mc).ctx a.Access).1 }))) ∧
    (∀ project bucket_name object_key options,
      ((project = none ∨ bucket_name = none ∨ object_key = none ∨
          (∃ c, project = some c ∧ ∀ p, w.registry.Get c._handle ≠ some (Object.project p)) ∨
          (∃ c p bucket key e, project = some c ∧ bucket_name = some bucket ∧
            object_key = some key ∧ w.registry.Get c._handle = some (Object.project p) ∧
            (lib.UploadObject w.trace p.Project (uploadScope w p).ctx bucket key
              (uploadOptionsOf options)).2 = some e)) ∧
        (∃ e, (upload_object lib w project bucket_name object_key options).1 =
          { upload := none, error := some e }) ∧
        (upload_object lib w project bucket_name object_key options).2.registry = w.registry) ∨
      (∃ c p bucket key h, project = some c ∧ bucket_name = some bucket ∧
        object_key = some key ∧ w.registry.Get c._handle = some (Object.project p) ∧
        (lib.UploadObject w.trace p.Project (uploadScope w p).ctx bucket key
          (uploadOptionsOf options)).2 = none ∧
        (upload_object lib w project bucket_name object_key options).1 =
          { upload := some ⟨h⟩, error := none } ∧
        w.registry.Get h = none ∧
        (upload_object lib w project bucket_name object_key options).2.registry.Get h =
          some (Object.upload
            { scope := uploadScope w p,
              upload := (lib.UploadObject w.trace p.Project (uploadScope w p).ctx bucket key
                (uploadOptionsOf options)).1 }))) := by
  refine ⟨fun access mc => ?_, fun project bucket_name object_key options => ?_⟩
  · cases access with
    | none =>
      exact Or.inl ⟨Or.inl rfl, ⟨⟨C.ErrorCode.NullArgument, "access"⟩, rfl⟩, rfl⟩
    | some c =>
      cases ha : asAccess (w.registry.Get c._handle) with
      | none =>
        refine Or.inl ⟨Or.inr (Or.inl ⟨c, rfl, fun a e => ?_⟩), ⟨⟨C.ErrorCode.InvalidHandle, "Access"⟩, ?_⟩, ?_⟩
        · rw [asAccess_eq_some.mpr e] at ha; cases ha
        · simp [uplink_open_project, ha, mallocError, ErrInvalidHandle, ErrClass.New]
        · simp [uplink_open_project, ha]
      | some a =>
        have hget := asAccess_eq_some.mp ha
        cases hout : (lib.OpenProject w.trace {} (openScope w mc).ctx a.Access).2 with
        | some e =>
          refine Or.inl ⟨Or.inr (Or.inr ⟨c, a, e, rfl, hget, hout⟩),
            ⟨⟨C.ErrorCode.Delegated e.code, e.msg⟩, ?_⟩, ?_⟩
          · rw [uplink_open_project_failed lib w c a mc e ha hout]
          · rw [uplink_open_project_failed lib w c a mc e ha hout]
        | none =>
          refine Or.inr ⟨c, a, (w.registry.Add (Object.project
            { scope := openScope w mc,
              Project := (lib.OpenProject w.trace {} (openScope w mc).ctx a.Access).1 })).1,
            rfl, hget, hout, ?_, ?_, ?_⟩
          · rw [uplink_open_project_opened lib w c a mc ha hout]
          · exact Universe.Get_Add_fresh _ _
          · rw [uplink_open_project_opened lib w c a mc ha hout]
            exact Universe.Get_Add_self _ _
  · cases project with
    | none =>
      exact Or.inl ⟨Or.inl rfl, ⟨⟨C.ErrorCode.NullArgument, "project"⟩, rfl⟩, rfl⟩
    | some c =>
      cases bucket_name with
      | none =>
        exact Or.inl ⟨Or.inr (Or.inl rfl), ⟨⟨C.ErrorCode.NullArgument, "bucket_name"⟩, rfl⟩,
          rfl⟩
      | some bucket =>
        cases object_key with
        | none =>
          exact Or.inl ⟨Or.inr (Or.inr (Or.inl rfl)),
            ⟨⟨C.ErrorCode.NullArgument, "object_key"⟩, rfl⟩, rfl⟩
        | some key =>
          cases hp : asProject (w.registry.Get c._handle) with
          | none =>
            refine Or.inl ⟨Or.inr (Or.inr (Or.inr (Or.inl ⟨c, rfl, fun p e => ?_⟩))),
              ⟨⟨C.ErrorCode.InvalidHandle, "project"⟩, ?_⟩, ?_⟩
            · rw [asProject_eq_some.mpr e] at hp; cases hp
            · simp [upload_object, hp, mallocError, ErrInvalidHandle, ErrClass.New]
            · simp [upload_object, hp]
          | some p =>
            have hget := asProject_eq_some.mp hp
            cases hout : (lib.UploadObject w.trace p.Project (uploadScope w p).ctx bucket key
                (uploadOptionsOf options)).2 with
            | some e =>
              refine Or.inl ⟨Or.inr (Or.inr (Or.inr (Or.inr
                ⟨c, p, bucket, key, e, rfl, rfl, rfl, hget, hout⟩))),
                ⟨⟨C.ErrorCode.Delegated e.code, e.msg⟩, ?_⟩, ?_⟩
              · rw [upload_object_failed lib w c p bucket key options e hp hout]
              · rw [upload_object_failed lib w c p bucket key options e hp hout]
            | none =>
              refine Or.inr ⟨c, p, bucket, key, (w.registry.Add (Object.upload
                { scope := uploadScope w p,
                  upload := (lib.UploadObject w.trace p.Project (uploadScope w p).ctx bucket
                    key (uploadOptionsOf options)).1 })).1,
                rfl, rfl, rfl, hget, hout, ?_, ?_, ?_⟩
              · rw [upload_object_started lib w c p bucket key options hp hout]
              · exact Universe.Get_Add_fresh _ _
              · rw [upload_object_started lib w c p bucket key options hp hout]
                exact Universe.Get_Add_self _ _

/-! ## Cancel before release -/

/-- C9, as stated, fails for `free_upload`: in `sampleWorld` handle 3 resolves
to the Upload over library upload 202 with scope node 1, and all that
`free_upload` adds to the trace is the cancel of node 1. No event is a call
into the library: the underlying upload is neither aborted nor committed nor
otherwise released. -/
theorem free_upload_no_release_counterexample :
    sampleWorld.registry.Get 3 =
        some (Object.upload
          { scope := { ctx := { node := 1, concurrent := none }, cancel := 1 },
            upload := 202 }) ∧
      (free_upload sampleWorld (some ⟨3⟩)).2.trace = sampleWorld.trace ++ [Event.cancel 1] ∧
      ((free_upload sampleWorld (some ⟨3⟩)).2.trace.drop sampleWorld.trace.length).any
        Event.isLibCall = false := by
  decide

/-- C9, amended: for every handle that resolves to a Project, the effects
`uplink_close_project` and `freeProject` add to the trace are exactly the
cancel of the project's own scope followed by the single Close call on its
library project, and the outcome of Close is the library's answer to a history
that already holds the cancel. For every handle that resolves to an Upload,
`free_upload` returns a null error, adds to the trace exactly the cancel of
the upload's own scope, makes no call into the library (it never touches the
underlying upload) and removes the handle from the registry. -/
theorem close_and_free_effects (lib : Lib) (w : World) (h : Nat) :
    (∀ p, w.registry.Get h = some (Object.project p) →
      uplink_close_project lib w (some ⟨h⟩) =
        (mallocError (libErr (lib.Close (w.trace ++ [Event.cancel p.scope.cancel]) p.Project)),
         { w with trace := w.trace ++ [Event.cancel p.scope.cancel, Event.Close p.Project] }) ∧
      freeProject lib w (some ⟨h⟩) =
        { w with
          registry := w.registry.Del h,
          trace := w.trace ++ [Event.cancel p.scope.cancel, Event.Close p.Project] }) ∧
    (∀ u, w.registry.Get h = some (Object.upload u) →
      free_upload w (some ⟨h⟩) =
        (none, { w with
                 registry := w.registry.Del h,
                 trace := w.trace ++ [Event.cancel u.scope.cancel] }) ∧
      ((free_upload w (some ⟨h⟩)).2.trace.drop w.trace.length).any Event.isLibCall = false ∧
      (free_upload w (some ⟨h⟩)).2.registry.Get h = none) := by
  refine ⟨fun p hget => ⟨?_, ?_⟩, fun u hget => ⟨?_, ?_, ?_⟩⟩
  · simp [uplink_close_project, asProject_eq_some.mpr hget, scope.doCancel, Lib.callClose]
  · exact freeProject_resolved lib w ⟨h⟩ p (asProject_eq_some.mpr hget)
  · exact free_upload_resolved w ⟨h⟩ u (asUpload_eq_some.mpr hget)
  · rw [free_upload_resolved w ⟨h⟩ u (asUpload_eq_some.mpr hget)]
    simp [Event.isLibCall]
  · rw [free_upload_registry]
    exact Universe.Get_Del_self _ _

/-- Witness for the amended C9 at `sampleWorld`: closing the project at handle
2 records the cancel of scope node 0, then Close on library project 101;
freeing the upload at handle 3 records the cancel of scope node 1 only. -/
theorem close_and_free_effects_witness :
    (uplink_close_project okLib sampleWorld (some ⟨2⟩)).2.trace =
        sampleWorld.trace ++ [Event.cancel 0, Event.Close 101] ∧
      (free_upload sampleWorld (some ⟨3⟩)).2.trace = sampleWorld.trace ++ [Event.cancel 1] :=
  ⟨congrArg (fun r => r.2.trace)
      ((close_and_free_effects okLib sampleWorld 2).1
        { scope := { ctx := { node := 0, concurrent := none }, cancel := 0 }, Project := 101 }
        (by decide)).1,
   congrArg (fun r => r.2.trace)
      ((close_and_free_effects okLib sampleWorld 3).2
        { scope := { ctx := { node := 1, concurrent := none }, cancel := 1 }, upload := 202 }
        (by decide)).1⟩

/-! ## Expiration of an upload -/

/-- C10: for every call of `upload_object` with non-null arguments and a
project handle that resolves (`expires` being an `int64_t`), the one call the
function makes into the library is UploadObject, and the options it passes
carry the zero time (no expiration) exactly when the options argument is
absent or its `expires` field is zero or negative; otherwise they carry
`time.Unix(expires, 0)`. -/
theorem upload_object_expiration (lib : Lib) (w : World) (h : Nat) (p : Project)
    (bucket key : String) (options : Option C.UploadOptions)
    (hget : w.registry.Get h = some (Object.project p))
    (hrange : ∀ o, options = some o → -(2 ^ 63) ≤ o.expires ∧ o.expires < 2 ^ 63) :
    (upload_object lib w (some ⟨h⟩) (some bucket) (some key) options).2.trace =
        w.trace ++ [Event.UploadObject p.Project (uploadScope w p).ctx bucket key
          (uploadOptionsOf options)] ∧
      ((uploadOptionsOf options).Expires = Time.zero ↔
        (options = none ∨ ∃ o, options = some o ∧ o.expires ≤ 0)) ∧
      (∀ o, options = some o → 0 < o.expires →
        (uploadOptionsOf options).Expires = Time.Unix o.expires 0) := by
  have hp : asProject (w.registry.Get (C.Handle.mk h)._handle) = some p :=
    asProject_eq_some.mpr hget
  refine ⟨?_, ?_, ?_⟩
  · cases hout : (lib.UploadObject w.trace p.Project (uploadScope w p).ctx bucket key
        (uploadOptionsOf options)).2 with
    | some e => rw [upload_object_failed lib w ⟨h⟩ p bucket key options e hp hout]
    | none => rw [upload_object_started lib w ⟨h⟩ p bucket key options hp hout]
  · cases options with
    | none => simp [uploadOptionsOf]
    | some o =>
      have hr := hrange o rfl
      by_cases hpos : o.expires > 0
      · have h64 : toInt64 o.expires = o.expires := by
          unfold toInt64
          have h1 := hr.1
          have h2 := hr.2
          norm_num at h1 h2 ⊢
          omega
        simp only [uploadOptionsOf, if_pos hpos, h64, Time.Unix, Time.zero]
        constructor
        · intro heq
          have hsec := congrArg Time.sec heq
          simp only at hsec
          omega
        · rintro (hno | ⟨o2, ho2, hle⟩)
          · cases hno
          · cases ho2
            omega
      · simp only [uploadOptionsOf, if_neg hpos]
        constructor
        · intro _
          exact Or.inr ⟨o, rfl, by omega⟩
        · intro _
          trivial
  · intro o ho hpos
    have hr := hrange o ho
    have h64 : toInt64 o.expires = o.expires := by
      unfold toInt64
      have h1 := hr.1
      have h2 := hr.2
      norm_num at h1 h2 ⊢
      omega
    subst ho
    simp only [uploadOptionsOf, if_pos hpos, h64]

/-- Witness for C10: at `sampleWorld`, project handle 2, `expires = 99` is
delegated as the Unix time 99 s, 0 ns. -/
theorem upload_object_expiration_witness :
    (upload_object okLib sampleWorld (some ⟨2⟩) (some "b") (some "k") (some ⟨99⟩)).2.trace =
        sampleWorld.trace ++
          [Event.UploadObject 101 { node := 2, concurrent := none } "b" "k"
            { Expires := { sec := 99, nsec := 0 } }] ∧
      (uploadOptionsOf (some ⟨99⟩)).Expires = Time.Unix 99 0 :=
  ⟨(upload_object_expiration okLib sampleWorld 2
      { scope := { ctx := { node := 0, concurrent := none }, cancel := 0 }, Project := 101 }
      "b" "k" (some ⟨99⟩) (by decide)
      (fun o ho => by cases ho; decide)).1,
   (upload_object_expiration okLib sampleWorld 2
      { scope := { ctx := { node := 0, concurrent := none }, cancel := 0 }, Project := 101 }
      "b" "k" (some ⟨99⟩) (by decide)
      (fun o ho => by cases ho; decide)).2.2 ⟨99⟩ rfl (by decide)⟩

end Uplink
